import Mathlib

/-!
Verification of the Palau Sant Jordi agenda scraper (`scraper.py`).

The Python source is shallowly embedded below.  External collaborators
(Playwright page fetching, BeautifulSoup selector queries, the third-party
`dateparser` library) are not code of the scraper; they enter the embedding
as explicit parameters:

* the `dateparser.parse` call becomes a function parameter
  `primary : String → Option PyDateTime`;
* a fetched/parsed HTML document becomes a `Doc` record holding, for each
  ordered CSS-selector probe the scraper performs, the text that probe would
  return (`none` when the selector matches nothing), plus the ordered list
  of anchor hrefs the soup queries would yield;
* Python exceptions are modelled with `Except String`: a `.error` value is a
  raised exception.

Machine-level details: Python `str` values are Lean `String`s, slicing is by
characters (as in Python 3), `int` is `Nat` (all integers involved are
non-negative), and the regular expressions of the source are implemented
directly as backtracking matchers with Python `re.search` (leftmost-match,
greedy) semantics restricted to ASCII digits/whitespace.
-/

set_option autoImplicit false

namespace Scraper

/-- Python `datetime.datetime` value: calendar fields plus an optional tzinfo
(`none` models a naive datetime, `some z` a datetime with tzinfo `z`). -/
structure PyDateTime where
  year : Nat
  month : Nat
  day : Nat
  hour : Nat
  minute : Nat
  tz : Option String
deriving DecidableEq

/-- Constant `DEFAULT_TZ = tz.gettz("Europe/Madrid")` of the source. -/
def DEFAULT_TZ : String := "Europe/Madrid"

/-- Constant `DEFAULT_TIME = (20, 0)` of the source. -/
def DEFAULT_TIME : Nat × Nat := (20, 0)

/-- Gregorian leap-year test, as used by Python's `datetime` validation. -/
def isLeap (y : Nat) : Bool :=
  (y % 4 == 0 && y % 100 != 0) || y % 400 == 0

/-- Days in a month, as used by Python's `datetime` validation. -/
def daysInMonth (y m : Nat) : Nat :=
  if m = 2 then (if isLeap y then 29 else 28)
  else if m = 4 ∨ m = 6 ∨ m = 9 ∨ m = 11 then 30
  else 31

/-- The `datetime.datetime(year, month, day, hour, minute)` constructor.
Python raises `ValueError` when a component is out of range; a raised
exception is an `Except.error` carrying the CPython message. -/
def mkDatetime (y mo d h mi : Nat) : Except String PyDateTime :=
  if y < 1 ∨ 9999 < y then .error "year is out of range"
  else if mo < 1 ∨ 12 < mo then .error "month must be in 1..12"
  else if d < 1 ∨ daysInMonth y mo < d then .error "day is out of range for month"
  else if 23 < h then .error "hour must be in 0..23"
  else if 59 < mi then .error "minute must be in 0..59"
  else .ok ⟨y, mo, d, h, mi, none⟩

/-- ASCII lowercasing extended with the accented letters admitted by the
month-name character class of `DATE_REGEX` (Python `str.lower`, restricted
to the characters that can occur in a match). -/
def lowerChar (c : Char) : Char :=
  if 65 ≤ c.toNat ∧ c.toNat ≤ 90 then Char.ofNat (c.toNat + 32)
  else if c = 'Á' then 'á'
  else if c = 'É' then 'é'
  else if c = 'Í' then 'í'
  else if c = 'Ó' then 'ó'
  else if c = 'Ú' then 'ú'
  else if c = 'Ñ' then 'ñ'
  else c

/-- Python `str.lower()` on a month-name candidate. -/
def lowerStr (s : String) : String := String.mk (s.data.map lowerChar)

/-- Character class `\s` of the source's regexes (ASCII whitespace). -/
def isSpaceChar (c : Char) : Bool :=
  c = ' ' || c = '\t' || c = '\n' || c = '\r' || c.toNat = 11 || c.toNat = 12

/-- Character class `[A-Za-záéíóúñÁÉÍÓÚÑ]` of `DATE_REGEX`. -/
def isMonthChar (c : Char) : Bool :=
  (65 ≤ c.toNat && c.toNat ≤ 90) || (97 ≤ c.toNat && c.toNat ≤ 122) ||
    c = 'á' || c = 'é' || c = 'í' || c = 'ó' || c = 'ú' || c = 'ñ' ||
    c = 'Á' || c = 'É' || c = 'Í' || c = 'Ó' || c = 'Ú' || c = 'Ñ'

/-- Numeric value of an ASCII digit. -/
def digitVal (c : Char) : Nat := c.toNat - 48

/-- Splits a maximal non-empty run of characters satisfying `p` off the
front of `cs` (the greedy `X+` regex step; `none` when the run is empty). -/
def takeRun1 (p : Char → Bool) (cs : List Char) : Option (List Char × List Char) :=
  let t := cs.takeWhile p
  if t.isEmpty then none else some (t, cs.drop t.length)

/-- Matches the literal `de` case-insensitively (the `re.IGNORECASE` flag of
`DATE_REGEX`). -/
def matchDe : List Char → Option (List Char)
  | c1 :: c2 :: rest =>
      if lowerChar c1 = 'd' ∧ lowerChar c2 = 'e' then some rest else none
  | _ => none

/-- Matches `\s+de\s+([A-Za-z…]+)\s+de\s+(\d{4})` — the tail of `DATE_REGEX`
after the day group — returning the month-name group and the year group. -/
def matchDateTail (cs : List Char) : Option (String × Nat) := do
  let (_, r1) ← takeRun1 isSpaceChar cs
  let r2 ← matchDe r1
  let (_, r3) ← takeRun1 isSpaceChar r2
  let (mon, r4) ← takeRun1 isMonthChar r3
  let (_, r5) ← takeRun1 isSpaceChar r4
  let r6 ← matchDe r5
  let (_, r7) ← takeRun1 isSpaceChar r6
  match r7 with
  | y1 :: y2 :: y3 :: y4 :: _ =>
      if y1.isDigit ∧ y2.isDigit ∧ y3.isDigit ∧ y4.isDigit then
        some (String.mk mon,
          ((digitVal y1 * 10 + digitVal y2) * 10 + digitVal y3) * 10 + digitVal y4)
      else none
  | _ => none

/-- Attempts `DATE_REGEX` anchored at the head of `cs`.  Mirrors the regex
engine: the greedy `\d{1,2}` day group first tries two digits and falls back
to one. -/
def matchDateAt : List Char → Option (Nat × String × Nat)
  | c1 :: c2 :: rest =>
      if c1.isDigit then
        if c2.isDigit then
          match matchDateTail rest with
          | some (mon, y) => some (digitVal c1 * 10 + digitVal c2, mon, y)
          | none =>
              match matchDateTail (c2 :: rest) with
              | some (mon, y) => some (digitVal c1, mon, y)
              | none => none
        else
          match matchDateTail (c2 :: rest) with
          | some (mon, y) => some (digitVal c1, mon, y)
          | none => none
      else none
  | _ => none

/-- `DATE_REGEX.search`: leftmost match of
`(\d{1,2})\s+de\s+([A-Za-záéíóúñÁÉÍÓÚÑ]+)\s+de\s+(\d{4})`, returning the
three groups `(day, month-name, year)`. -/
def dateSearch : List Char → Option (Nat × String × Nat)
  | [] => none
  | c :: rest =>
      match matchDateAt (c :: rest) with
      | some r => some r
      | none => dateSearch rest

/-- Attempts `TIME_REGEX` (`(\d{1,2}):(\d{2})`) anchored at the head. -/
def matchTimeAt : List Char → Option (Nat × Nat)
  | c1 :: c2 :: c3 :: rest =>
      if c1.isDigit then
        if c2.isDigit ∧ c3 = ':' then
          match rest with
          | m1 :: m2 :: _ =>
              if m1.isDigit ∧ m2.isDigit then
                some (digitVal c1 * 10 + digitVal c2, digitVal m1 * 10 + digitVal m2)
              else none
          | _ => none
        else if c2 = ':' ∧ c3.isDigit then
          match rest with
          | m2 :: _ =>
              if m2.isDigit then some (digitVal c1, digitVal c3 * 10 + digitVal m2)
              else none
          | _ => none
        else none
      else none
  | _ => none

/-- `TIME_REGEX.search`: leftmost `HH:MM` match, returning `(hour, minute)`. -/
def timeSearch : List Char → Option (Nat × Nat)
  | [] => none
  | c :: rest =>
      match matchTimeAt (c :: rest) with
      | some r => some r
      | none => timeSearch rest

/-- The `MONTHS_ES` table of the source (Spanish month name → month number). -/
def MONTHS_ES : List (String × Nat) :=
  [("enero", 1), ("febrero", 2), ("marzo", 3), ("abril", 4), ("mayo", 5),
   ("junio", 6), ("julio", 7), ("agosto", 8), ("septiembre", 9),
   ("setiembre", 9), ("octubre", 10), ("noviembre", 11), ("diciembre", 12)]

/-- Dictionary lookup `MONTHS_ES.get(month_name)`. -/
def monthNum (s : String) : Option Nat :=
  (MONTHS_ES.find? (fun p => p.1 == s)).map Prod.snd

/-- Embedding of `extract_datetime_es(text)`.  The third-party
`dateparser.parse(text, languages=["es"], …)` call is the external parameter
`primary` (the scraper configures it with `RETURN_AS_TIMEZONE_AWARE`, so the
real collaborator only ever returns timezone-aware values).  A raised
`ValueError` from the `datetime` constructor is an `Except.error`. -/
def extract_datetime_es (primary : String → Option PyDateTime) (text : String) :
    Except String (Option PyDateTime) :=
  if text = "" then .ok none
  else
    match primary text with
    | some dt => .ok (some dt)
    | none =>
        match dateSearch text.data with
        | none => .ok none
        | some (day, monthName, year) =>
            match monthNum (lowerStr monthName) with
            | none => .ok none
            | some month =>
                let hm := match timeSearch text.data with
                  | none => DEFAULT_TIME
                  | some t => t
                (mkDatetime year month day hm.1 hm.2).map
                  (fun dt => some { dt with tz := some DEFAULT_TZ })

/-- Boolean list-versus-list initial-segment test (helper for `lsub`). -/
def lpre : List Char → List Char → Bool
  | [], _ => true
  | _ :: _, [] => false
  | a :: as, b :: bs => a == b && lpre as bs

/-- Boolean substring test on character lists: Python's `a in b` on `str`. -/
def lsub (a b : List Char) : Bool :=
  lpre a b || (match b with
    | [] => false
    | _ :: bs => lsub a bs)

/-- Result of `urllib.parse.urlparse` (the components the scraper reads). -/
structure ParsedUrl where
  scheme : String
  netloc : String
  path : String
  query : String
  fragment : String
deriving DecidableEq

/-- Splits `cs` at the first occurrence of the separator character,
returning the part before and the part after (`none`: no separator). -/
def splitAtChar (sep : Char) : List Char → Option (List Char × List Char)
  | [] => none
  | c :: rest =>
      if c = sep then some ([], rest)
      else (splitAtChar sep rest).map (fun p => (c :: p.1, p.2))

/-- Splits `cs` at the first occurrence of `"://"` (helper for `urlparse`). -/
def splitSchemeSep : List Char → Option (List Char × List Char)
  | ':' :: '/' :: '/' :: rest => some ([], rest)
  | c :: rest => (splitSchemeSep rest).map (fun p => (c :: p.1, p.2))
  | [] => none

/-- Embedding of `urllib.parse.urlparse` for the URL shapes the scraper
handles: an optional `scheme://netloc` head (netloc extending to the first
`/` or `?`), then path, then `?query`, then `#fragment` (fragment split off
first, at the first `#`, as in CPython). -/
def urlparse (s : String) : ParsedUrl :=
  let (core, frag) := match splitAtChar '#' s.data with
    | none => (s.data, ([] : List Char))
    | some p => p
  let (scheme, netloc, rest) := match splitSchemeSep core with
    | none => (([] : List Char), ([] : List Char), core)
    | some (sch, r) =>
        let nl := r.takeWhile (fun c => ¬(c = '/' ∨ c = '?'))
        (sch, nl, r.drop nl.length)
  let (path, query) := match splitAtChar '?' rest with
    | none => (rest, ([] : List Char))
    | some p => p
  ⟨String.mk scheme, String.mk netloc, String.mk path, String.mk query, String.mk frag⟩

/-- The scheme-plus-authority prefix of a parsed base URL (helper for
relative-reference resolution in `urljoin`). -/
def schemeNetloc (base : String) : String :=
  let p := urlparse base
  p.scheme ++ "://" ++ p.netloc

/-- Characters of `base` up to and including the last `/` (helper for
resolving bare relative references in `urljoin`). -/
def upToLastSlash (base : String) : String :=
  String.mk ((base.data.reverse.dropWhile (fun c => ¬c = '/')).reverse)

/-- Embedding of `urllib.parse.urljoin(base, href)` for the reference shapes
occurring on the site: absolute URLs pass through, `//…` keeps the base
scheme, `/…` keeps scheme and authority, `?…` replaces the query, and bare
relative references resolve against the base URL's directory. -/
def urljoin (base href : String) : String :=
  if href = "" then base
  else if lsub "://".data href.data then href
  else if lpre "//".data href.data then (urlparse base).scheme ++ ":" ++ href
  else if lpre "/".data href.data then schemeNetloc base ++ href
  else if lpre "?".data href.data then
    schemeNetloc base ++ (urlparse base).path ++ href
  else upToLastSlash base ++ href

/-- Python `path.rstrip("/")`. -/
def rstripSlash (s : String) : String :=
  String.mk ((s.data.reverse.dropWhile (fun c => c = '/')).reverse)

/-- The seed domain string the scraper checks hosts against. -/
def seedDomain : String := "palausantjordi.barcelona"

/-- The body of filter checks of `links_from_listing` on one absolutized
candidate URL: the source's sequence of `continue` guards — same domain
(substring test on the netloc), no `page=` in the query, no fragment, not
the agenda listing path itself, and path depth at least 3 — is, since every
guard is pure, the conjunction of the five checks in order. -/
def linkOk (h : String) : Bool :=
  let p := urlparse h
  lsub seedDomain.data p.netloc.data &&
    !lsub "page=".data p.query.data &&
    (p.fragment == "") &&
    !(rstripSlash p.path == "/es/agenda") &&
    !(decide (p.path.data.count '/' < 3))

/-- Worker for `links_from_listing`: the `for href in raw` filter loop with
its `seen` set.  A candidate is kept when it is non-empty (`absolutize`
returns `None` on a falsy href), absolutizes to an unseen URL, and passes
all filter checks. -/
def lflAux (base : String) (seen : List String) : List String → List String
  | [] => []
  | href :: rest =>
      if href = "" then lflAux base seen rest
      else if urljoin base href ∈ seen then lflAux base seen rest
      else if linkOk (urljoin base href) then
        urljoin base href :: lflAux base (urljoin base href :: seen) rest
      else lflAux base seen rest

/-- Embedding of `links_from_listing(html, base_url)`.  The BeautifulSoup
phase — collecting `a[href]` values inside card-like containers and then any
anchor of the page — is external; its output enters as the ordered raw href
list `raw` (duplicates allowed, exactly as in the source, where the filter's
`seen` set removes them). -/
def links_from_listing (raw : List String) (base_url : String) : List String :=
  lflAux base_url [] raw

/-- Python string slicing `s[:n]` (by characters, as in Python 3). -/
def pyslice (s : String) (n : Nat) : String := String.mk (s.data.take n)

/-- A fetched-and-parsed HTML document, abstracted to the outcomes of the
soup queries the scraper performs on it. `hrefs` is the ordered raw list the
two `a[href]` sweeps of `links_from_listing` produce; `pagHrefs` the hrefs
matched by `a[href*='?page='], a[rel='next']`; each `…Probes` list holds,
per CSS selector of the corresponding ordered selector list in
`event_from_detail`, the stripped text of its `select_one` hit (`none` when
the selector matches no node); `titleTag` the text of the `title` tag;
`fullText` the whole visible text (`soup.get_text`); `descProbe` the text of
the first `.teaser, .summary, .field--name-body, article p, .content p`
match. -/
structure Doc where
  hrefs : List String
  pagHrefs : List String
  titleProbes : List (Option String)
  titleTag : Option String
  dateProbes : List (Option String)
  fullText : String
  venueProbes : List (Option String)
  descProbe : Option String

/-- First selector probe that produced a node with non-empty stripped text —
the `if n and n.get_text(strip=True): …; break` cascade of the source. -/
def firstHit : List (Option String) → Option String
  | [] => none
  | none :: rest => firstHit rest
  | some s :: rest => if s = "" then firstHit rest else some s

/-- The event record dict built by `event_from_detail` (its five keys). -/
structure Rec where
  title : String
  url : String
  start_dt : PyDateTime
  location : String
  description : String
deriving DecidableEq

/-- The default venue string of the source. -/
def defaultVenue : String := "Palau Sant Jordi, Barcelona"

/-- Title resolution of `event_from_detail` (`# Título robusto`): the
`h1`-shaped selector cascade, else the `title` tag when its stripped text is
non-empty, else nothing. -/
def titleOf (d : Doc) : Option String :=
  match firstHit d.titleProbes with
  | some t => some t
  | none =>
      match d.titleTag with
      | some t => if t = "" then none else some t
      | none => none

/-- The `title or "Evento"` fallback applied when the record is built. -/
def finalTitle (d : Doc) : String :=
  match titleOf d with
  | some t => t
  | none => "Evento"

/-- Date-text selection of `event_from_detail`: the date-ish selector
cascade, else the first 3000 characters of the whole page text. -/
def dateTextOf (d : Doc) : String :=
  match firstHit d.dateProbes with
  | some t => t
  | none => pyslice d.fullText 3000

/-- Venue selection of `event_from_detail` (`# Lugar`): the location-ish
selector cascade, else the fixed default venue string. -/
def venueOf (d : Doc) : String :=
  match firstHit d.venueProbes with
  | some v => v
  | none => defaultVenue

/-- Description selection of `event_from_detail` (`# Descripción breve`):
the body-ish probe's text truncated to 500 characters, else empty. -/
def descOf (d : Doc) : String :=
  match d.descProbe with
  | some s => pyslice s 500
  | none => ""

/-- Embedding of `event_from_detail(html, url)`: the field selections above
around the date resolution; `None` is returned when the date cannot be
resolved.  A `ValueError` raised inside `extract_datetime_es` propagates
(there is no handler in this function). -/
def event_from_detail (primary : String → Option PyDateTime) (d : Doc)
    (url : String) : Except String (Option Rec) :=
  match extract_datetime_es primary (dateTextOf d) with
  | .error e => .error e
  | .ok none => .ok none
  | .ok (some dt) =>
      .ok (some
        { title := finalTitle d
          url := url
          start_dt := dt
          location := venueOf d
          description := descOf d })

/-- UTF-8 encoding of one character (Python `str.encode("utf-8")`). -/
def utf8Char (c : Char) : List Nat :=
  let n := c.toNat
  if n < 128 then [n]
  else if n < 2048 then [192 + n / 64, 128 + n % 64]
  else if n < 65536 then [224 + n / 4096, 128 + n / 64 % 64, 128 + n % 64]
  else [240 + n / 262144, 128 + n / 4096 % 64, 128 + n / 64 % 64, 128 + n % 64]

/-- UTF-8 byte sequence of a string. -/
def utf8 (s : String) : List Nat :=
  s.data.foldr (fun c acc => utf8Char c ++ acc) []

/-- Truncation to a 32-bit word. -/
def w32 (n : Nat) : Nat := n % 4294967296

/-- 32-bit left rotation by `k`. -/
def rotl (k n : Nat) : Nat := w32 (n * 2 ^ k) ||| n / 2 ^ (32 - k)

/-- 32-bit bitwise complement (valid for `n < 2^32`). -/
def not32 (n : Nat) : Nat := 4294967295 - n

/-- SHA-1 round function for round `t`. -/
def sha1f (t b c d : Nat) : Nat :=
  if t < 20 then (b &&& c) ||| (not32 b &&& d)
  else if t < 40 then b ^^^ c ^^^ d
  else if t < 60 then (b &&& c) ||| (b &&& d) ||| (c &&& d)
  else b ^^^ c ^^^ d

/-- SHA-1 round constant for round `t`. -/
def sha1k (t : Nat) : Nat :=
  if t < 20 then 0x5A827999
  else if t < 40 then 0x6ED9EBA1
  else if t < 60 then 0x8F1BBCDC
  else 0xCA62C1D6

/-- Big-endian byte rendering of `v` on `n` bytes. -/
def beBytes (n v : Nat) : List Nat :=
  (List.range n).map (fun i => v / 2 ^ (8 * (n - 1 - i)) % 256)

/-- SHA-1 message padding: `0x80`, zeros to 56 mod 64, 64-bit bit length. -/
def padMsg (msg : List Nat) : List Nat :=
  msg ++ [128] ++ List.replicate ((119 - msg.length % 64) % 64) 0
    ++ beBytes 8 (msg.length * 8)

/-- Packs bytes into big-endian 32-bit words. -/
def words4 : List Nat → List Nat
  | b0 :: b1 :: b2 :: b3 :: rest =>
      (((b0 * 256 + b1) * 256 + b2) * 256 + b3) :: words4 rest
  | _ => []

/-- Splits a word list into 16-word blocks. -/
def blocks16 : List Nat → List (List Nat)
  | a0 :: a1 :: a2 :: a3 :: a4 :: a5 :: a6 :: a7 :: a8 :: a9 :: a10 :: a11 ::
      a12 :: a13 :: a14 :: a15 :: rest =>
      [a0, a1, a2, a3, a4, a5, a6, a7, a8, a9, a10, a11, a12, a13, a14, a15]
        :: blocks16 rest
  | _ => []

/-- Message-schedule expansion: given the last 16 words most-recent-first,
produces the next `k` words `W[i] = rotl1 (W[i-3] ^ W[i-8] ^ W[i-14] ^ W[i-16])`. -/
def sha1Sched (recent : List Nat) : Nat → List Nat
  | 0 => []
  | k + 1 =>
      let w := rotl 1 ((recent.getD 2 0) ^^^ (recent.getD 7 0) ^^^
        (recent.getD 13 0) ^^^ (recent.getD 15 0))
      w :: sha1Sched (w :: recent.take 15) k

/-- SHA-1 compression rounds over the 80 schedule words. -/
def sha1Rounds (t : Nat) (st : Nat × Nat × Nat × Nat × Nat) :
    List Nat → Nat × Nat × Nat × Nat × Nat
  | [] => st
  | w :: rest =>
      let (a, b, c, d, e) := st
      let tmp := w32 (rotl 5 a + sha1f t b c d + e + sha1k t + w)
      sha1Rounds (t + 1) (tmp, a, rotl 30 b, c, d) rest

/-- Processes one 16-word block, updating the five-word chaining state. -/
def sha1Block (h : List Nat) (w16 : List Nat) : List Nat :=
  let ws := w16 ++ sha1Sched w16.reverse 64
  let (a, b, c, d, e) :=
    sha1Rounds 0 (h.getD 0 0, h.getD 1 0, h.getD 2 0, h.getD 3 0, h.getD 4 0) ws
  [w32 (h.getD 0 0 + a), w32 (h.getD 1 0 + b), w32 (h.getD 2 0 + c),
    w32 (h.getD 3 0 + d), w32 (h.getD 4 0 + e)]

/-- SHA-1 digest (20 bytes) of a byte sequence. -/
def sha1Bytes (msg : List Nat) : List Nat :=
  let hs := (blocks16 (words4 (padMsg msg))).foldl sha1Block
    [0x67452301, 0xEFCDAB89, 0x98BADCFE, 0x10325476, 0xC3D2E1F0]
  hs.foldr (fun h acc => beBytes 4 h ++ acc) []

/-- Lower-case hexadecimal digit. -/
def hexChar (n : Nat) : Char :=
  if n < 10 then Char.ofNat (48 + n) else Char.ofNat (87 + n)

/-- Python `hashlib.sha1(s.encode("utf-8")).hexdigest()`. -/
def sha1hex (s : String) : String :=
  String.mk ((sha1Bytes (utf8 s)).foldr
    (fun b acc => hexChar (b / 16) :: hexChar (b % 16) :: acc) [])

/-- One calendar entry built by `build_ics` (the `ics.Event` fields set). -/
structure ICSEvent where
  name : String
  beginAt : PyDateTime
  location : String
  url : String
  description : String
  uid : String
deriving DecidableEq

/-- The calendar object: its entries plus the extra content lines.  The
Python `set` held in `cal.events` is modelled as the list of entries in
insertion order. -/
structure Calendar where
  events : List ICSEvent
  extra : List (String × String)
deriving DecidableEq

/-- Constant `CAL_NAME` of the source. -/
def CAL_NAME : String := "Agenda Palau Sant Jordi"

/-- The string hashed for an entry's UID: `ev.get("url") or ev["title"]` —
the title is used exactly when the url field is falsy (empty). -/
def uidSource (ev : Rec) : String := if ev.url = "" then ev.title else ev.url

/-- Embedding of `build_ics(events)`. -/
def build_ics (events : List Rec) : Calendar :=
  { events := events.map (fun ev =>
      { name := ev.title
        beginAt := ev.start_dt
        location := ev.location
        url := ev.url
        description := ev.description
        uid := sha1hex (uidSource ev) ++ "@palausantjordi" })
    extra := [("X-WR-CALNAME", CAL_NAME)] }

/-- Constant `AGENDA_URL` of the source. -/
def AGENDA_URL : String := "https://palausantjordi.barcelona/es/agenda"

/-- Constant `MAX_PAGES = 4` of the source. -/
def MAX_PAGES : Nat := 4

/-- Constant `MAX_EVENTS = 120` of the source. -/
def MAX_EVENTS : Nat := 120

/-- Identity key of the final dedupe loop: `(ev["url"], ev["start_dt"])`. -/
def recKey (ev : Rec) : String × PyDateTime := (ev.url, ev.start_dt)

/-- Worker for `dedupe`: the `for ev in events` loop with its `seen` set
(the Python set of keys is modelled as the list of keys inserted so far). -/
def dedupeAux (seen : List (String × PyDateTime)) : List Rec → List Rec
  | [] => []
  | r :: rest =>
      if recKey r ∈ seen then dedupeAux seen rest
      else r :: dedupeAux (recKey r :: seen) rest

/-- The dedupe pass at the end of `scrape_all_events` (`# dedupe por (url,
fecha)`), extracted as the pure function it is. -/
def dedupe (l : List Rec) : List Rec := dedupeAux [] l

/-- The external world of one crawl run: the single fetch capability
(`Browser.get_html`), returning the parsed document of a URL or raising. -/
structure World where
  fetch : String → Except String Doc

/-- One iteration body of the detail loop: fetch the candidate link and run
`event_from_detail` on it.  Any exception raised inside the `try` block is
absorbed by the `except` clause, yielding no record. -/
def stepLink (primary : String → Option PyDateTime)
    (fetch : String → Except String Doc) (link : String) : Option Rec :=
  match fetch link with
  | .error _ => none
  | .ok d =>
      match event_from_detail primary d link with
      | .error _ => none
      | .ok r => r

/-- The inner `for link in links` loop of `scrape_all_events`: stops fetching
as soon as the accumulated raw records reach `maxEvents`; otherwise fetches
the link (recording it in `det`) and appends any extracted record. -/
def processLinks (primary : String → Option PyDateTime)
    (fetch : String → Except String Doc) (maxEvents : Nat) :
    List String → List Rec → List String → List Rec × List String
  | [], evs, det => (evs, det)
  | link :: rest, evs, det =>
      if maxEvents ≤ evs.length then (evs, det)
      else
        match stepLink primary fetch link with
        | none => processLinks primary fetch maxEvents rest evs (det ++ [link])
        | some r =>
            processLinks primary fetch maxEvents rest (evs ++ [r]) (det ++ [link])

/-- Trace of one crawl: the listing pages visited, the raw records collected
(pre-dedupe), and the detail links actually fetched. -/
structure Trace where
  pages : List String
  events : List Rec
  details : List String
deriving DecidableEq

/-- The outer `for page_url in page_urls` loop of `scrape_all_events`: the
agenda page reuses the already fetched first document, other listing pages
are fetched (a failure here is unguarded and propagates); after a page the
loop breaks once the raw-record count reached `maxEvents`. -/
def processPages (primary : String → Option PyDateTime) (w : World)
    (firstDoc : Doc) (maxEvents : Nat) :
    List String → List String → List Rec → List String → Except String Trace
  | [], visited, evs, det => .ok ⟨visited, evs, det⟩
  | p :: rest, visited, evs, det =>
      match (if p = AGENDA_URL then Except.ok firstDoc else w.fetch p) with
      | .error e => .error e
      | .ok d =>
          let links := links_from_listing d.hrefs p
          let r := processLinks primary w.fetch maxEvents links evs det
          if maxEvents ≤ r.1.length then .ok ⟨visited ++ [p], r.1, r.2⟩
          else processPages primary w firstDoc maxEvents rest (visited ++ [p]) r.1 r.2

/-- Worker for the `dict.fromkeys` page deduplication (keeps first
occurrences, preserving order). -/
def dkfAux (seen : List String) : List String → List String
  | [] => []
  | s :: rest =>
      if s ∈ seen then dkfAux seen rest else s :: dkfAux (s :: seen) rest

/-- `list(dict.fromkeys(page_urls))`. -/
def dedupKeepFirst (l : List String) : List String := dkfAux [] l

/-- The crawl of `scrape_all_events` before the final dedupe, with the two
caps as explicit arguments (the source fixes them to `MAX_PAGES` and
`MAX_EVENTS`): fetch the agenda, build the page frontier from the pagination
anchors (`a[href*='?page='], a[rel='next']`), dedupe it, truncate it to
`maxPages`, and walk it. -/
def crawl (primary : String → Option PyDateTime) (maxPages maxEvents : Nat)
    (w : World) : Except String Trace :=
  match w.fetch AGENDA_URL with
  | .error e => .error e
  | .ok firstDoc =>
      let page_urls := (dedupKeepFirst
        (AGENDA_URL :: firstDoc.pagHrefs.map (urljoin AGENDA_URL))).take maxPages
      processPages primary w firstDoc maxEvents page_urls [] [] []

/-- Embedding of `scrape_all_events()`: the capped crawl followed by the
`(url, start_dt)` dedupe of the raw records. -/
def scrape_all_events (primary : String → Option PyDateTime) (w : World) :
    Except String (List Rec) :=
  match crawl primary MAX_PAGES MAX_EVENTS w with
  | .error e => .error e
  | .ok t => .ok (dedupe t.events)

/-- Embedding of `main()`.  The returned value records the serialization
outcome: `none` means the `.ics` write was skipped (zero events, any
previously published file untouched), `some cal` means `cal` was written. -/
def main (primary : String → Option PyDateTime) (w : World) :
    Except String (Option Calendar) :=
  match scrape_all_events primary w with
  | .error e => .error e
  | .ok events =>
      let cal := build_ics events
      if cal.events = [] then .ok none else .ok (some cal)

/-! ## Helper lemmas -/

/-- A month number coming out of the `MONTHS_ES` table is in `1..12`. -/
theorem monthNum_range (s : String) (mo : Nat) (h : monthNum s = some mo) :
    1 ≤ mo ∧ mo ≤ 12 := by
  unfold monthNum at h
  cases hf : MONTHS_ES.find? (fun p => p.1 == s) with
  | none => rw [hf] at h; cases h
  | some p =>
      rw [hf] at h
      injection h with h2
      have hmem : p.2 ∈ MONTHS_ES.map Prod.snd :=
        List.mem_map_of_mem _ (List.mem_of_find?_eq_some hf)
      have hall : ∀ n ∈ MONTHS_ES.map Prod.snd, 1 ≤ n ∧ n ≤ 12 := by decide
      rw [← h2]
      exact hall _ hmem

/-! ## Claim C1 -/

/-- C1 (amended): whenever the primary natural-language parser returns
nothing for the text, the date regex finds a `<day> de <month-name> de
<year>` match with a recognised month name and calendar-valid components,
and no `HH:MM` time pattern occurs anywhere in the text, then
`extract_datetime_es` returns that day at the default time 20:00 with the
timezone Europe/Madrid. -/
theorem claim1_default_time (primary : String → Option PyDateTime)
    (text : String) (d : Nat) (mon : String) (y mo : Nat)
    (hp : primary text = none)
    (hd : dateSearch text.data = some (d, mon, y))
    (hm : monthNum (lowerStr mon) = some mo)
    (ht : timeSearch text.data = none)
    (hy : 1 ≤ y ∧ y ≤ 9999)
    (hday : 1 ≤ d ∧ d ≤ daysInMonth y mo) :
    extract_datetime_es primary text = .ok (some ⟨y, mo, d, 20, 0, some DEFAULT_TZ⟩) := by
  have htext : ¬text = "" := by
    intro he
    rw [he] at hd
    simp [dateSearch] at hd
  have hmo := monthNum_range _ _ hm
  simp only [extract_datetime_es, if_neg htext, hp, hd, hm, ht, DEFAULT_TIME]
  rw [mkDatetime]
  rw [if_neg (by omega), if_neg (by omega), if_neg (by omega),
    if_neg (by omega), if_neg (by omega)]
  rfl

/-- Witness for C1 at a concrete input. -/
theorem claim1_witness :
    extract_datetime_es (fun _ => none) "15 de marzo de 2026" =
      .ok (some ⟨2026, 3, 15, 20, 0, some DEFAULT_TZ⟩) :=
  claim1_default_time (fun _ => none) "15 de marzo de 2026" 15 "marzo" 2026 3
    rfl (by decide) (by decide) (by decide) (by decide) (by decide)

/-- A possible behaviour of the external `dateparser` collaborator on the
bare date string `"15 de marzo de 2026"`: a timezone-aware instant at
midnight of that day (date-only text parses to time 00:00). -/
def primaryMidnight : String → Option PyDateTime :=
  fun s => if s = "15 de marzo de 2026" then
    some ⟨2026, 3, 15, 0, 0, some DEFAULT_TZ⟩ else none

/-- Counterexample to C1 as stated: the text contains the day/month/year
pattern and no time pattern, yet when the primary parser succeeds its result
is returned unchanged, so the instant is at 00:00, not at the default 20:00
— the fixed default time is applied only on the regex fallback path. -/
theorem claim1_counterexample :
    dateSearch "15 de marzo de 2026".data = some (15, "marzo", 2026) ∧
    timeSearch "15 de marzo de 2026".data = none ∧
    extract_datetime_es primaryMidnight "15 de marzo de 2026" =
      .ok (some ⟨2026, 3, 15, 0, 0, some DEFAULT_TZ⟩) ∧
    (⟨2026, 3, 15, 0, 0, some DEFAULT_TZ⟩ : PyDateTime).hour = 0 :=
  ⟨by decide, by decide, rfl, rfl⟩

/-! ## Claim C2 -/

/-- C2 is violated by the code: on text whose only date-like content matches
the fallback regex with an out-of-range day (and on which the primary parser
yields nothing), `extract_datetime_es` feeds day 99 to the `datetime`
constructor and a `ValueError` escapes — extraction is not total. -/
theorem claim2_raises :
    extract_datetime_es (fun _ => none) "99 de enero de 2026" =
      .error "day is out of range for month" := rfl

/-! ## Deduplicator lemmas -/

/-- The dedupe loop only ever drops elements, in place. -/
theorem dedupeAux_sublist (seen : List (String × PyDateTime)) (l : List Rec) :
    List.Sublist (dedupeAux seen l) l := by
  induction l generalizing seen with
  | nil => simp [dedupeAux]
  | cons r rest ih =>
      rw [dedupeAux]
      split
      · exact (ih seen).cons r
      · exact (ih _).cons₂ r

/-- A record surviving the dedupe loop has a key outside the incoming
`seen` set. -/
theorem dedupeAux_not_seen (seen : List (String × PyDateTime)) (l : List Rec)
    (r : Rec) (h : r ∈ dedupeAux seen l) : recKey r ∉ seen := by
  induction l generalizing seen with
  | nil => simp [dedupeAux] at h
  | cons a rest ih =>
      rw [dedupeAux] at h
      split at h
      · exact ih seen h
      · rcases List.mem_cons.mp h with rfl | h2
        · assumption
        · intro hs
          exact ih _ h2 (List.mem_cons_of_mem _ hs)

/-- The keys of the dedupe output are pairwise distinct. -/
theorem dedupeAux_nodup (seen : List (String × PyDateTime)) (l : List Rec) :
    ((dedupeAux seen l).map recKey).Nodup := by
  induction l generalizing seen with
  | nil => simp [dedupeAux]
  | cons a rest ih =>
      rw [dedupeAux]
      split
      · exact ih seen
      · simp only [List.map_cons, List.nodup_cons]
        refine ⟨fun hmem => ?_, ih _⟩
        obtain ⟨x, hx, hkey⟩ := List.mem_map.mp hmem
        exact dedupeAux_not_seen _ _ _ hx (hkey ▸ List.mem_cons_self _ _)

/-- Each survivor of the dedupe loop is the first element of the input
carrying its key. -/
theorem dedupeAux_first (seen : List (String × PyDateTime)) (l : List Rec)
    (r : Rec) (h : r ∈ dedupeAux seen l) :
    l.find? (fun x => decide (recKey x = recKey r)) = some r := by
  induction l generalizing seen with
  | nil => simp [dedupeAux] at h
  | cons a rest ih =>
      rw [dedupeAux] at h
      split at h
      · have hne : ¬recKey a = recKey r := by
          intro he
          exact dedupeAux_not_seen _ _ _ h (he ▸ ‹recKey a ∈ seen›)
        rw [List.find?_cons_of_neg _ (by simpa using hne)]
        exact ih seen h
      · rcases List.mem_cons.mp h with rfl | h2
        · exact List.find?_cons_of_pos _ (by simp)
        · have hne : ¬recKey a = recKey r := by
            intro he
            exact dedupeAux_not_seen _ _ _ h2 (he ▸ List.mem_cons_self _ _)
          rw [List.find?_cons_of_neg _ (by simpa using hne)]
          exact ih _ h2

/-- Every input key is either already in `seen` or represented in the
output of the dedupe loop. -/
theorem dedupeAux_covers (seen : List (String × PyDateTime)) (l : List Rec)
    (r : Rec) (h : r ∈ l) :
    recKey r ∈ seen ∨ ∃ x, x ∈ dedupeAux seen l ∧ recKey x = recKey r := by
  induction l generalizing seen with
  | nil => cases h
  | cons a rest ih =>
      rw [dedupeAux]
      rcases List.mem_cons.mp h with rfl | h2
      · split
        · exact Or.inl ‹recKey r ∈ seen›
        · exact Or.inr ⟨r, List.mem_cons_self _ _, rfl⟩
      · split
        · exact ih seen h2
        · rcases ih (recKey a :: seen) h2 with hin | ⟨x, hx, hk⟩
          · rcases List.mem_cons.mp hin with he | hs
            · exact Or.inr ⟨a, List.mem_cons_self _ _, he.symm⟩
            · exact Or.inl hs
          · exact Or.inr ⟨x, List.mem_cons_of_mem _ hx, hk⟩

/-! ## Claim C5 -/

/-- C5: the deduplicator keys identity on `(url, start_dt)`: its output is
the input with later key-repeats dropped — a sublist (first-seen order is
preserved), with pairwise-distinct keys, in which each survivor is exactly
the first input record carrying its key, and every input record's key is
represented. -/
theorem claim5_dedupe_key (l : List Rec) :
    List.Sublist (dedupe l) l ∧
    ((dedupe l).map recKey).Nodup ∧
    (∀ r, r ∈ dedupe l →
      l.find? (fun x => decide (recKey x = recKey r)) = some r) ∧
    (∀ r, r ∈ l → ∃ x, x ∈ dedupe l ∧ recKey x = recKey r) := by
  refine ⟨dedupeAux_sublist [] l, dedupeAux_nodup [] l,
    fun r h => dedupeAux_first [] l r h, fun r h => ?_⟩
  rcases dedupeAux_covers [] l r h with hin | hex
  · cases hin
  · exact hex

/-- Two records agreeing on `(url, start_dt)` but with different
descriptions, used to instantiate C5 concretely. -/
def recDupA : Rec :=
  ⟨"Concierto X", "https://palausantjordi.barcelona/es/e/aa",
    ⟨2026, 3, 15, 20, 0, some DEFAULT_TZ⟩, defaultVenue, "first description"⟩

/-- Same identity key as `recDupA`, different description. -/
def recDupB : Rec :=
  ⟨"Concierto X", "https://palausantjordi.barcelona/es/e/aa",
    ⟨2026, 3, 15, 20, 0, some DEFAULT_TZ⟩, defaultVenue, "second description"⟩

/-- Witness for C5: the two same-key records collapse to the first. -/
theorem claim5_witness :
    dedupe [recDupA, recDupB] = [recDupA] ∧
    [recDupA, recDupB].find?
      (fun x => decide (recKey x = recKey recDupA)) = some recDupA := by
  refine ⟨by decide, (claim5_dedupe_key [recDupA, recDupB]).2.2.1 recDupA (by decide)⟩

/-! ## Claim C9 -/

/-- On input whose keys are already pairwise distinct and outside `seen`,
the dedupe loop is the identity. -/
theorem dedupeAux_id (seen : List (String × PyDateTime)) (l : List Rec)
    (hnd : (l.map recKey).Nodup) (hs : ∀ r, r ∈ l → recKey r ∉ seen) :
    dedupeAux seen l = l := by
  induction l generalizing seen with
  | nil => rfl
  | cons a rest ih =>
      rw [dedupeAux, if_neg (hs a (List.mem_cons_self _ _))]
      simp only [List.map_cons, List.nodup_cons] at hnd
      refine congrArg (a :: ·) (ih _ hnd.2 fun r hr => ?_)
      intro hin
      rcases List.mem_cons.mp hin with he | hsn
      · exact hnd.1 (he ▸ List.mem_map_of_mem recKey hr)
      · exact hs r (List.mem_cons_of_mem _ hr) hsn

/-- C9: the deduplicator is idempotent, `dedupe (dedupe x) = dedupe x`. -/
theorem claim9_idempotent (l : List Rec) : dedupe (dedupe l) = dedupe l :=
  dedupeAux_id [] (dedupe l) (dedupeAux_nodup [] l) (fun _ _ => List.not_mem_nil _)

/-! ## Claim C4 -/

/-- C4 (amended): each calendar entry's identifier is the SHA-1 hex digest
of the record's source URL — or, when the url field is empty, of the title
alone (the start is not part of the hashed input) — followed by the fixed
suffix `@palausantjordi`; and the identifiers depend on nothing but those
hashed strings, so the same input yields the same identifiers across runs. -/
theorem claim4_uid_formula :
    (∀ evs : List Rec, (build_ics evs).events.map (fun e => e.uid) =
      evs.map (fun ev => sha1hex (uidSource ev) ++ "@palausantjordi")) ∧
    (∀ evs evs' : List Rec, evs.map uidSource = evs'.map uidSource →
      (build_ics evs).events.map (fun e => e.uid) =
        (build_ics evs').events.map (fun e => e.uid)) := by
  have h1 : ∀ evs : List Rec, (build_ics evs).events.map (fun e => e.uid) =
      evs.map (fun ev => sha1hex (uidSource ev) ++ "@palausantjordi") := by
    intro evs
    rw [build_ics]
    rw [List.map_map]
    rfl
  refine ⟨h1, fun evs evs' h => ?_⟩
  have h2 : ∀ l : List Rec,
      l.map (fun ev => sha1hex (uidSource ev) ++ "@palausantjordi") =
        (l.map uidSource).map (fun s => sha1hex s ++ "@palausantjordi") := by
    intro l
    rw [List.map_map]
    rfl
  rw [h1, h1, h2, h2, h]

/-- A record with a URL, used to instantiate C4 concretely. -/
def recUrlA : Rec :=
  ⟨"Concierto X", "https://palausantjordi.barcelona/es/e/aa",
    ⟨2026, 3, 15, 20, 0, some DEFAULT_TZ⟩, defaultVenue, "desc one"⟩

/-- Same URL, title and start as `recUrlA` up to `uidSource`, but other
fields differ. -/
def recUrlB : Rec :=
  ⟨"Concierto X", "https://palausantjordi.barcelona/es/e/aa",
    ⟨2026, 3, 15, 20, 0, some DEFAULT_TZ⟩, "elsewhere", "desc two"⟩

/-- Witness for C4: records hashing the same source string receive the same
identifier. -/
theorem claim4_witness :
    (build_ics [recUrlA]).events.map (fun e => e.uid) =
      (build_ics [recUrlB]).events.map (fun e => e.uid) :=
  claim4_uid_formula.2 [recUrlA] [recUrlB] rfl

/-- Left zero-padding to two digits (helper for `dtRepr`). -/
def pad2 (n : Nat) : String := if n < 10 then "0" ++ toString n else toString n

/-- A canonical rendering of a `PyDateTime`, used only to formalise the
claim's (and spec's) words `title+start`. -/
def dtRepr (dt : PyDateTime) : String :=
  toString dt.year ++ "-" ++ pad2 dt.month ++ "-" ++ pad2 dt.day ++ " " ++
    pad2 dt.hour ++ ":" ++ pad2 dt.minute

/-- Modelled from the spec: the identifier rule the claim states — hash of
the source URL or, if absent, of the title together with the start — for
comparison with the rule implemented in `build_ics`. -/
def claimedUid (ev : Rec) : String :=
  sha1hex (if ev.url = "" then ev.title ++ " " ++ dtRepr ev.start_dt else ev.url)
    ++ "@palausantjordi"

/-- URL-less record, title `"A"`, starting 2026-03-15 20:00. -/
def recNoUrlA : Rec :=
  ⟨"A", "", ⟨2026, 3, 15, 20, 0, some DEFAULT_TZ⟩, defaultVenue, ""⟩

/-- URL-less record, title `"A"`, starting one day later. -/
def recNoUrlB : Rec :=
  ⟨"A", "", ⟨2026, 3, 16, 20, 0, some DEFAULT_TZ⟩, defaultVenue, ""⟩

set_option maxRecDepth 100000 in
/-- Counterexample to C4 as stated: for records without a URL the code
hashes the title alone, not the title together with the start — two
URL-less records with equal titles but different starts receive the same
identifier, and the identifier differs from the claim's title-plus-start
hash. -/
theorem claim4_counterexample :
    (build_ics [recNoUrlA]).events.map (fun e => e.uid) =
      (build_ics [recNoUrlB]).events.map (fun e => e.uid) ∧
    recNoUrlA.start_dt ≠ recNoUrlB.start_dt ∧
    (build_ics [recNoUrlA]).events.map (fun e => e.uid) ≠ [claimedUid recNoUrlA] := by
  refine ⟨rfl, by decide, by decide⟩

/-! ## Claim C3 -/

/-- A boolean whose negation is true is false. -/
theorem bnotTrue {b : Bool} (h : (!b) = true) : b = false := by
  cases b
  · rfl
  · simp at h

/-- Every URL emitted by the link filter loop passed the filter checks. -/
theorem lflAux_ok (base : String) (seen raw : List String) (u : String)
    (h : u ∈ lflAux base seen raw) : linkOk u = true := by
  induction raw generalizing seen with
  | nil => simp [lflAux] at h
  | cons href rest ih =>
      rw [lflAux] at h
      split at h
      · exact ih seen h
      · split at h
        · exact ih seen h
        · split at h
          · rcases List.mem_cons.mp h with rfl | h2
            · assumption
            · exact ih _ h2
          · exact ih seen h

/-- C3 (amended): every URL returned by `links_from_listing` has a host
containing the seed domain string as a substring, has no `page=` in its
query, has no fragment, does not have the agenda listing path, and has path
depth at least 3.  (As the counterexample shows, these filters do not imply
the claim's stronger properties: the returned URL can equal the listing URL
itself, and a host on a foreign domain merely containing the seed string
passes.) -/
theorem claim3_link_filter (raw : List String) (base u : String)
    (h : u ∈ links_from_listing raw base) :
    lsub seedDomain.data (urlparse u).netloc.data = true ∧
    lsub "page=".data (urlparse u).query.data = false ∧
    (urlparse u).fragment = "" ∧
    rstripSlash (urlparse u).path ≠ "/es/agenda" ∧
    3 ≤ (urlparse u).path.data.count '/' := by
  have hok := lflAux_ok base [] raw u h
  simp only [linkOk, Bool.and_eq_true] at hok
  obtain ⟨⟨⟨⟨h1, h2⟩, h3⟩, h4⟩, h5⟩ := hok
  refine ⟨h1, bnotTrue h2, eq_of_beq h3, ne_of_beq_false (bnotTrue h4), ?_⟩
  have h6 := of_decide_eq_false (bnotTrue h5)
  omega

/-- A deep same-domain listing URL that links to itself. -/
def listingBase : String := "https://palausantjordi.barcelona/es/x/y/z"

/-- A URL on a foreign domain whose host merely contains the seed string. -/
def evilLink : String := "https://palausantjordi.barcelona.evil.com/a/b/c"

/-- Counterexample to C3 as stated: with the listing URL `listingBase`, the
returned list contains the listing URL itself, and contains a URL whose
domain is not the seed domain (the domain guard is a substring test). -/
theorem claim3_counterexample :
    listingBase ∈ links_from_listing [listingBase, evilLink] listingBase ∧
    evilLink ∈ links_from_listing [listingBase, evilLink] listingBase ∧
    (urlparse evilLink).netloc ≠ seedDomain := by
  refine ⟨by decide, by decide, by decide⟩

/-- Witness for C3 at a concrete discovered link. -/
theorem claim3_witness :
    lsub seedDomain.data
      (urlparse "https://palausantjordi.barcelona/es/evento/foo").netloc.data = true ∧
    lsub "page=".data
      (urlparse "https://palausantjordi.barcelona/es/evento/foo").query.data = false ∧
    (urlparse "https://palausantjordi.barcelona/es/evento/foo").fragment = "" ∧
    rstripSlash (urlparse "https://palausantjordi.barcelona/es/evento/foo").path ≠
      "/es/agenda" ∧
    3 ≤ (urlparse "https://palausantjordi.barcelona/es/evento/foo").path.data.count '/' :=
  claim3_link_filter ["https://palausantjordi.barcelona/es/evento/foo"] AGENDA_URL
    "https://palausantjordi.barcelona/es/evento/foo" (by decide)

/-! ## Claim C7 -/

/-- The selector cascade only accepts non-empty stripped text. -/
theorem firstHit_ne (ps : List (Option String)) (s : String)
    (h : firstHit ps = some s) : s ≠ "" := by
  induction ps with
  | nil => cases h
  | cons p rest ih =>
      match p with
      | none => exact ih (by rwa [firstHit] at h)
      | some t =>
          rw [firstHit] at h
          split at h
          · exact ih h
          · cases h
            assumption

/-- A title coming out of the title cascade is non-empty. -/
theorem titleOf_ne (d : Doc) (t : String) (h : titleOf d = some t) : t ≠ "" := by
  rw [titleOf] at h
  cases hf : firstHit d.titleProbes with
  | some s =>
      rw [hf] at h
      cases h
      exact firstHit_ne _ _ hf
  | none =>
      rw [hf] at h
      cases htt : d.titleTag with
      | none => rw [htt] at h; cases h
      | some s =>
          rw [htt] at h
          dsimp only at h
          split at h
          · cases h
          · cases h
            assumption

/-- The final title is never the empty string. -/
theorem finalTitle_ne (d : Doc) : finalTitle d ≠ "" := by
  rw [finalTitle]
  cases ht : titleOf d with
  | none => decide
  | some t => exact titleOf_ne d t ht

/-- The venue is never the empty string. -/
theorem venueOf_ne (d : Doc) : venueOf d ≠ "" := by
  rw [venueOf]
  cases hf : firstHit d.venueProbes with
  | some v => exact firstHit_ne _ _ hf
  | none => decide

/-- The description is truncated to at most 500 characters. -/
theorem descOf_le (d : Doc) : (descOf d).length ≤ 500 := by
  rw [descOf]
  cases d.descProbe with
  | none => decide
  | some s =>
      show (String.mk (s.data.take 500)).length ≤ 500
      show (s.data.take 500).length ≤ 500
      exact List.length_take_le _ _

/-- When the configured primary parser only produces timezone-aware values,
every instant coming out of `extract_datetime_es` is timezone-aware (the
fallback path stamps `DEFAULT_TZ` on explicitly). -/
theorem extract_datetime_es_tz (primary : String → Option PyDateTime)
    (text : String) (dt : PyDateTime)
    (hp : ∀ s d0, primary s = some d0 → d0.tz ≠ none)
    (h : extract_datetime_es primary text = .ok (some dt)) : dt.tz ≠ none := by
  rw [extract_datetime_es] at h
  split at h
  · cases h
  · cases hpr : primary text with
    | some d0 =>
        rw [hpr] at h
        cases h
        exact hp _ _ hpr
    | none =>
        rw [hpr] at h
        cases hd : dateSearch text.data with
        | none => rw [hd] at h; cases h
        | some g =>
            rw [hd] at h
            obtain ⟨day, monthName, year⟩ := g
            dsimp only at h
            cases hm : monthNum (lowerStr monthName) with
            | none => rw [hm] at h; cases h
            | some month =>
                rw [hm] at h
                dsimp only at h
                cases hmk : mkDatetime year month day
                    (match timeSearch text.data with
                      | none => DEFAULT_TIME
                      | some t => t).1
                    (match timeSearch text.data with
                      | none => DEFAULT_TIME
                      | some t => t).2 with
                | error e => rw [hmk] at h; cases h
                | ok v =>
                    rw [hmk] at h
                    cases h
                    simp

/-- C7: every record produced by `event_from_detail` has a non-empty title,
a timezone-aware start (given that the primary parser, configured with
`RETURN_AS_TIMEZONE_AWARE`, only returns aware values), a non-empty
location, and a description of at most 500 characters. -/
theorem claim7_record_invariant (primary : String → Option PyDateTime)
    (d : Doc) (url : String) (r : Rec)
    (hp : ∀ s d0, primary s = some d0 → d0.tz ≠ none)
    (h : event_from_detail primary d url = .ok (some r)) :
    r.title ≠ "" ∧ r.start_dt.tz ≠ none ∧ r.location ≠ "" ∧
      r.description.length ≤ 500 := by
  rw [event_from_detail] at h
  cases hext : extract_datetime_es primary (dateTextOf d) with
  | error e => rw [hext] at h; cases h
  | ok o =>
      rw [hext] at h
      cases o with
      | none => cases h
      | some dt =>
          cases h
          exact ⟨finalTitle_ne d, extract_datetime_es_tz _ _ _ hp hext,
            venueOf_ne d, descOf_le d⟩

/-- A concrete detail document whose only date-ish probe hits. -/
def detailDoc : Doc :=
  { hrefs := [], pagHrefs := [], titleProbes := [none, none, none, none, none],
    titleTag := none, dateProbes := [some "1 de enero de 2030"], fullText := "",
    venueProbes := [none, none, none, none], descProbe := none }

/-- Witness for C7 at a concrete extraction. -/
theorem claim7_witness :
    ("Evento" : String) ≠ "" ∧
      (some DEFAULT_TZ : Option String) ≠ none ∧
      defaultVenue ≠ "" ∧ ("" : String).length ≤ 500 :=
  claim7_record_invariant (fun _ => none) detailDoc
    "https://palausantjordi.barcelona/es/e/aa"
    ⟨"Evento", "https://palausantjordi.barcelona/es/e/aa",
      ⟨2030, 1, 1, 20, 0, some DEFAULT_TZ⟩, defaultVenue, ""⟩
    (fun _ _ h => Option.noConfusion h) rfl

/-! ## Claim C6 -/

/-- The detail loop never grows the raw record list past the event cap. -/
theorem processLinks_len (primary : String → Option PyDateTime)
    (fetch : String → Except String Doc) (maxEvents : Nat) (links : List String)
    (evs : List Rec) (det : List String) (h : evs.length ≤ maxEvents) :
    (processLinks primary fetch maxEvents links evs det).1.length ≤ maxEvents := by
  induction links generalizing evs det with
  | nil => simpa [processLinks]
  | cons link rest ih =>
      rw [processLinks]
      split
      · simpa
      · have hlt : evs.length < maxEvents := by omega
        cases stepLink primary fetch link with
        | none => exact ih evs _ h
        | some r =>
            refine ih (evs ++ [r]) _ ?_
            rw [List.length_append]
            simpa using hlt

/-- The page loop keeps the record bound and visits at most the queued
pages. -/
theorem processPages_bounds (primary : String → Option PyDateTime) (w : World)
    (firstDoc : Doc) (maxEvents : Nat) (pages visited : List String)
    (evs : List Rec) (det : List String) (t : Trace)
    (hev : evs.length ≤ maxEvents)
    (h : processPages primary w firstDoc maxEvents pages visited evs det = .ok t) :
    t.events.length ≤ maxEvents ∧ t.pages.length ≤ visited.length + pages.length := by
  induction pages generalizing visited evs det with
  | nil =>
      cases h
      exact ⟨hev, by simp⟩
  | cons p rest ih =>
      rw [processPages] at h
      cases hfd : (if p = AGENDA_URL then Except.ok firstDoc else w.fetch p) with
      | error e => rw [hfd] at h; cases h
      | ok d =>
          rw [hfd] at h
          simp only [] at h
          split at h
          · cases h
            constructor
            · exact processLinks_len _ _ _ _ _ _ hev
            · simp only [List.length_cons, List.length_append, List.length_nil]
              omega
          · have hle : (processLinks primary w.fetch maxEvents
                (links_from_listing d.hrefs p) evs det).1.length ≤ maxEvents :=
              processLinks_len _ _ _ _ _ _ hev
            obtain ⟨h1, h2⟩ := ih (visited ++ [p]) _ _ hle h
            refine ⟨h1, ?_⟩
            simp only [List.length_cons, List.length_append, List.length_nil] at h2 ⊢
            omega

/-- A document whose pagination sweep yields five pagination links. -/
def pagedDoc : Doc :=
  { hrefs := [], pagHrefs :=
      ["https://palausantjordi.barcelona/es/agenda?page=1",
       "https://palausantjordi.barcelona/es/agenda?page=2",
       "https://palausantjordi.barcelona/es/agenda?page=3",
       "https://palausantjordi.barcelona/es/agenda?page=4",
       "https://palausantjordi.barcelona/es/agenda?page=5"],
    titleProbes := [], titleTag := none, dateProbes := [], fullText := "",
    venueProbes := [], descProbe := none }

/-- A document with nothing on it. -/
def emptyDoc : Doc :=
  { hrefs := [], pagHrefs := [], titleProbes := [], titleTag := none,
    dateProbes := [], fullText := "", venueProbes := [], descProbe := none }

/-- A world whose agenda page advertises five pagination links and whose
other listing pages are empty. -/
def w5 : World :=
  ⟨fun u => if u = AGENDA_URL then .ok pagedDoc
    else if lsub "page=".data u.data then .ok emptyDoc
    else .error "navigation error"⟩

/-- C6: the crawl run with the source's caps visits at most `MAX_PAGES = 4`
listing pages and accumulates at most `MAX_EVENTS = 120` raw event records;
and with the page cap lowered to 2 against a listing advertising 5
pagination links, exactly 2 listing pages are visited. -/
theorem claim6_caps :
    (∀ (primary : String → Option PyDateTime) (w : World) (t : Trace),
      crawl primary MAX_PAGES MAX_EVENTS w = .ok t →
        t.pages.length ≤ MAX_PAGES ∧ t.events.length ≤ MAX_EVENTS) ∧
    (crawl (fun _ => none) 2 MAX_EVENTS w5).toOption.map
      (fun t => t.pages.length) = some 2 := by
  constructor
  · intro primary w t h
    rw [crawl] at h
    split at h
    · cases h
    · obtain ⟨h1, h2⟩ := processPages_bounds _ _ _ _ _ _ _ _ _ (by simp) h
      refine ⟨?_, h1⟩
      calc t.pages.length ≤ _ := h2
        _ ≤ MAX_PAGES := by simp
  · rfl

/-- Witness for C6 at a concrete crawl. -/
theorem claim6_witness :
    (⟨[AGENDA_URL,
        "https://palausantjordi.barcelona/es/agenda?page=1",
        "https://palausantjordi.barcelona/es/agenda?page=2",
        "https://palausantjordi.barcelona/es/agenda?page=3"], [], []⟩ : Trace).pages.length
        ≤ MAX_PAGES ∧
    (⟨[AGENDA_URL,
        "https://palausantjordi.barcelona/es/agenda?page=1",
        "https://palausantjordi.barcelona/es/agenda?page=2",
        "https://palausantjordi.barcelona/es/agenda?page=3"], [], []⟩ : Trace).events.length
        ≤ MAX_EVENTS :=
  claim6_caps.1 (fun _ => none) w5 _ rfl

/-! ## Claim C8 -/

/-- C8: when the crawl yields zero unique events, `main` skips the calendar
write entirely (no file is produced) and still terminates successfully. -/
theorem claim8_skip_on_empty (primary : String → Option PyDateTime) (w : World)
    (h : scrape_all_events primary w = .ok []) : main primary w = .ok none := by
  rw [main, h]
  rfl

/-- A world with an empty agenda page. -/
def wEmpty : World :=
  ⟨fun u => if u = AGENDA_URL then .ok emptyDoc else .error "navigation error"⟩

/-- Witness for C8: a run finding nothing produces no calendar and does not
error. -/
theorem claim8_witness :
    scrape_all_events (fun _ => none) wEmpty = .ok [] ∧
      main (fun _ => none) wEmpty = .ok none :=
  ⟨rfl, claim8_skip_on_empty (fun _ => none) wEmpty rfl⟩

/-! ## Claim C10 -/

/-- Two-digit decimal rendering of `i < 100`. -/
def digits2 (i : Nat) : String :=
  String.mk [Char.ofNat (48 + i / 10), Char.ofNat (48 + i % 10)]

/-- The `i`-th event detail URL of the C10 scenario. -/
def eLink (i : Nat) : String :=
  "https://palausantjordi.barcelona/es/e/" ++ digits2 i

/-- Sixty distinct event detail URLs. -/
def eLinks : List String := (List.range 60).map eLink

/-- A further event URL, listed on page 2 beyond the event cap. -/
def fLink : String := "https://palausantjordi.barcelona/es/f/99"

/-- The second listing page of the C10 scenario. -/
def p2url : String := "https://palausantjordi.barcelona/es/agenda?page=1"

/-- The agenda page of the C10 scenario: one pagination link, 60 event
links. -/
def agendaDoc10 : Doc :=
  { hrefs := eLinks, pagHrefs := [p2url], titleProbes := [], titleTag := none,
    dateProbes := [], fullText := "", venueProbes := [], descProbe := none }

/-- The second listing page: the same 60 event links again, plus one more. -/
def page2Doc : Doc :=
  { hrefs := eLinks ++ [fLink], pagHrefs := [], titleProbes := [],
    titleTag := none, dateProbes := [], fullText := "", venueProbes := [],
    descProbe := none }

/-- Every detail page of the C10 scenario resolves to 2030-01-01. -/
def detailDoc10 : Doc :=
  { hrefs := [], pagHrefs := [], titleProbes := [], titleTag := none,
    dateProbes := [some "1 de enero de 2030"], fullText := "",
    venueProbes := [], descProbe := none }

/-- The C10 world: an agenda page and a second listing page re-advertising
the same sixty events plus one more. -/
def w10 : World :=
  ⟨fun u => if u = AGENDA_URL then .ok agendaDoc10
    else if u = p2url then .ok page2Doc
    else .ok detailDoc10⟩

/-- The instant every detail page of the C10 scenario resolves to. -/
def dt2030 : PyDateTime := ⟨2030, 1, 1, 20, 0, some DEFAULT_TZ⟩

/-- The record extracted from a C10 detail page fetched at `u`. -/
def recOf (u : String) : Rec := ⟨"Evento", u, dt2030, defaultVenue, ""⟩

/-- The sixty records of the first listing page. -/
def recs60 : List Rec := eLinks.map recOf

/-- The record of the 61st event page. -/
def recF : Rec := recOf fLink

/-- The detail loop on an empty link list returns its accumulators. -/
theorem processLinks_nil (primary : String → Option PyDateTime)
    (fetch : String → Except String Doc) (M : Nat) (evs : List Rec)
    (det : List String) : processLinks primary fetch M [] evs det = (evs, det) :=
  rfl

/-- Once the cap is reached, the detail loop fetches nothing further. -/
theorem processLinks_capped (primary : String → Option PyDateTime)
    (fetch : String → Except String Doc) (M : Nat) (links : List String)
    (evs : List Rec) (det : List String) (h : M ≤ evs.length) :
    processLinks primary fetch M links evs det = (evs, det) := by
  cases links with
  | nil => rfl
  | cons u rest => rw [processLinks, if_pos h]

/-- Processing a run of links that all extract successfully, while under the
cap, appends their records and marks them fetched. -/
theorem processLinks_chunk (primary : String → Option PyDateTime)
    (fetch : String → Except String Doc) (M : Nat) (f : String → Rec)
    (xs : List String) :
    ∀ (ys : List String) (evs : List Rec) (det : List String),
      (∀ u ∈ xs, stepLink primary fetch u = some (f u)) →
      evs.length + xs.length ≤ M →
      processLinks primary fetch M (xs ++ ys) evs det =
        processLinks primary fetch M ys (evs ++ xs.map f) (det ++ xs) := by
  induction xs with
  | nil => intro ys evs det _ _; simp
  | cons u rest ih =>
      intro ys evs det hstep hlen
      rw [List.cons_append, processLinks]
      have hlt : ¬M ≤ evs.length := by
        simp only [List.length_cons] at hlen
        omega
      rw [if_neg hlt, hstep u (List.mem_cons_self _ _)]
      show processLinks primary fetch M (rest ++ ys) (evs ++ [f u]) (det ++ [u]) = _
      rw [ih ys (evs ++ [f u]) (det ++ [u])
        (fun v hv => hstep v (List.mem_cons_of_mem _ hv))
        (by simp only [List.length_append, List.length_cons, List.length_nil] at hlen ⊢
            omega)]
      simp [List.append_assoc]

/-- The link filter is the identity on a duplicate-free list of non-empty
absolute links that all pass the checks. -/
theorem lflAux_all (base : String) (raw : List String) :
    ∀ seen : List String,
      (∀ u ∈ raw, ¬u = "" ∧ urljoin base u = u ∧ linkOk u = true ∧ u ∉ seen) →
      raw.Nodup →
      lflAux base seen raw = raw := by
  induction raw with
  | nil => intro seen _ _; rfl
  | cons u rest ih =>
      intro seen hall hnd
      obtain ⟨h1, h2, h3, h4⟩ := hall u (List.mem_cons_self _ _)
      rw [lflAux, if_neg h1, h2, if_neg h4, if_pos h3]
      refine congrArg (u :: ·) (ih (u :: seen) (fun v hv => ?_)
        (List.nodup_cons.mp hnd).2)
      obtain ⟨a1, a2, a3, a4⟩ := hall v (List.mem_cons_of_mem _ hv)
      refine ⟨a1, a2, a3, fun hin => ?_⟩
      rcases List.mem_cons.mp hin with rfl | hs
      · exact (List.nodup_cons.mp hnd).1 hv
      · exact a4 hs

/-- The set of keys the dedupe loop has seen after traversing `l`. -/
def seenAfter (seen : List (String × PyDateTime)) : List Rec → List (String × PyDateTime)
  | [] => seen
  | r :: rest => seenAfter (if recKey r ∈ seen then seen else recKey r :: seen) rest

/-- The dedupe loop distributes over append via `seenAfter`. -/
theorem dedupeAux_append (xs : List Rec) :
    ∀ (seen : List (String × PyDateTime)) (ys : List Rec),
      dedupeAux seen (xs ++ ys) =
        dedupeAux seen xs ++ dedupeAux (seenAfter seen xs) ys := by
  induction xs with
  | nil => intro seen ys; rfl
  | cons r rest ih =>
      intro seen ys
      by_cases hk : recKey r ∈ seen
      · simp only [List.cons_append, dedupeAux, seenAfter, if_pos hk]
        exact ih seen ys
      · simp only [List.cons_append, dedupeAux, seenAfter, if_neg hk]
        exact congrArg (r :: ·) (ih (recKey r :: seen) ys)

/-- Characterisation of `seenAfter` membership. -/
theorem mem_seenAfter (l : List Rec) :
    ∀ (seen : List (String × PyDateTime)) (k : String × PyDateTime),
      k ∈ seenAfter seen l ↔ k ∈ seen ∨ k ∈ l.map recKey := by
  induction l with
  | nil => intro seen k; simp [seenAfter]
  | cons r rest ih =>
      intro seen k
      rw [seenAfter]
      by_cases hk : recKey r ∈ seen
      · rw [if_pos hk, ih]
        simp only [List.map_cons, List.mem_cons]
        constructor
        · rintro (h | h)
          · exact Or.inl h
          · exact Or.inr (Or.inr h)
        · rintro (h | h | h)
          · exact Or.inl h
          · exact Or.inl (h ▸ hk)
          · exact Or.inr h
      · rw [if_neg hk, ih]
        simp only [List.map_cons, List.mem_cons]
        constructor
        · rintro (h | h)
          · rcases h with rfl | hs
            · exact Or.inr (Or.inl rfl)
            · exact Or.inl hs
          · exact Or.inr (Or.inr h)
        · rintro (h | h | h)
          · exact Or.inl (Or.inr h)
          · exact Or.inl (Or.inl h)
          · exact Or.inr h

/-- The dedupe loop drops a block whose keys were all seen already. -/
theorem dedupeAux_all_seen (l : List Rec) :
    ∀ seen, (∀ r ∈ l, recKey r ∈ seen) → dedupeAux seen l = [] := by
  induction l with
  | nil => intro seen _; rfl
  | cons r rest ih =>
      intro seen h
      rw [dedupeAux, if_pos (h r (List.mem_cons_self _ _))]
      exact ih seen (fun v hv => h v (List.mem_cons_of_mem _ hv))

/-- Deduplicating a list followed by a repeat of itself equals deduplicating
the list once. -/
theorem dedupe_append_self (l : List Rec) : dedupe (l ++ l) = dedupe l := by
  have hall : ∀ r ∈ l, recKey r ∈ seenAfter [] l := fun r hr =>
    (mem_seenAfter l [] (recKey r)).mpr (Or.inr (List.mem_map_of_mem _ hr))
  rw [dedupe, dedupe, dedupeAux_append, dedupeAux_all_seen l (seenAfter [] l) hall,
    List.append_nil]

/-- A fresh-keyed record appended after a duplicated block survives dedupe. -/
theorem dedupe_dup_fresh (l : List Rec) (rf : Rec)
    (h : recKey rf ∉ l.map recKey) :
    dedupe ((l ++ l) ++ [rf]) = dedupe l ++ [rf] := by
  rw [dedupe, dedupeAux_append]
  rw [show dedupeAux [] (l ++ l) = dedupe l from dedupe_append_self l]
  have hk : recKey rf ∉ seenAfter [] (l ++ l) := by
    intro hin
    rcases (mem_seenAfter (l ++ l) [] (recKey rf)).mp hin with h0 | h0
    · exact List.not_mem_nil _ h0
    · rw [List.map_append] at h0
      rcases List.mem_append.mp h0 with h1 | h1 <;> exact h h1
  rw [dedupeAux, if_neg hk]
  rfl

/-- Fetching any C10 URL other than the two listing pages extracts the
canonical record for that URL. -/
theorem stepLink_w10 (u : String) (h1 : ¬u = AGENDA_URL) (h2 : ¬u = p2url) :
    stepLink (fun _ => none) w10.fetch u = some (recOf u) := by
  have hf : w10.fetch u = .ok detailDoc10 := by
    show (if u = AGENDA_URL then Except.ok agendaDoc10
      else if u = p2url then Except.ok page2Doc else Except.ok detailDoc10) =
        Except.ok detailDoc10
    rw [if_neg h1, if_neg h2]
  rw [stepLink, hf]
  have he : event_from_detail (fun _ => none) detailDoc10 u = .ok (some (recOf u)) := by
    rw [event_from_detail]
    have hex : extract_datetime_es (fun _ => none) (dateTextOf detailDoc10) =
        .ok (some dt2030) := rfl
    rw [hex]
    rfl
  show (match event_from_detail (fun _ => none) detailDoc10 u with
    | .error _ => none
    | .ok r => r) = some (recOf u)
  rw [he]

/-- The sixty generated links are pairwise distinct. -/
theorem eLinks_nodup : eLinks.Nodup := by decide

/-- The sixty generated links all pass the link filter against the agenda
page. -/
theorem eLinks_ok : ∀ u ∈ eLinks,
    ¬u = "" ∧ urljoin AGENDA_URL u = u ∧ linkOk u = true ∧
      u ∉ ([] : List String) := by decide

/-- The second page's sixty-one links all pass the filter. -/
theorem page2_ok : ∀ u ∈ eLinks ++ [fLink],
    ¬u = "" ∧ urljoin p2url u = u ∧ linkOk u = true ∧
      u ∉ ([] : List String) := by decide

/-- The second page's links are pairwise distinct. -/
theorem page2_nodup : (eLinks ++ [fLink]).Nodup := by decide

/-- None of the event links is a listing page. -/
theorem eLinks_ne : ∀ u ∈ eLinks ++ [fLink], ¬u = AGENDA_URL ∧ ¬u = p2url := by
  decide

/-- Every C10 event link extracts its canonical record. -/
theorem step_all : ∀ u ∈ eLinks ++ [fLink],
    stepLink (fun _ => none) w10.fetch u = some (recOf u) := fun u hu =>
  stepLink_w10 u (eLinks_ne u hu).1 (eLinks_ne u hu).2

/-- Link discovery on the C10 agenda page yields exactly the sixty links. -/
theorem lfl_agenda : links_from_listing agendaDoc10.hrefs AGENDA_URL = eLinks := by
  show links_from_listing eLinks AGENDA_URL = eLinks
  rw [links_from_listing]
  exact lflAux_all AGENDA_URL eLinks [] eLinks_ok eLinks_nodup

/-- Link discovery on the C10 second page yields the sixty-one links. -/
theorem lfl_page2 : links_from_listing page2Doc.hrefs p2url = eLinks ++ [fLink] := by
  show links_from_listing (eLinks ++ [fLink]) p2url = eLinks ++ [fLink]
  rw [links_from_listing]
  exact lflAux_all p2url (eLinks ++ [fLink]) [] page2_ok page2_nodup

/-- Page 1 of the C10 crawl collects the sixty records (cap not reached). -/
theorem pl_page1 (M : Nat) (hM : 60 ≤ M) :
    processLinks (fun _ => none) w10.fetch M eLinks [] [] = (recs60, eLinks) := by
  have h := processLinks_chunk (fun _ => none) w10.fetch M recOf eLinks [] [] []
    (fun u hu => step_all u (List.mem_append_left _ hu))
    (by have h60 : eLinks.length = 60 := rfl
        simp only [List.length_nil]
        omega)
  simp only [List.append_nil, List.nil_append] at h
  exact h.trans rfl

/-- Page 2 of the C10 crawl under the 120 cap: the sixty duplicates fill the
cap and the 61st link is never fetched. -/
theorem pl_page2_cap120 :
    processLinks (fun _ => none) w10.fetch 120 (eLinks ++ [fLink]) recs60 eLinks =
      (recs60 ++ recs60, eLinks ++ eLinks) := by
  rw [processLinks_chunk (fun _ => none) w10.fetch 120 recOf eLinks [fLink]
    recs60 eLinks (fun u hu => step_all u (List.mem_append_left _ hu))
    (by have h1 : recs60.length = 60 := rfl
        have h2 : eLinks.length = 60 := rfl
        omega)]
  rw [processLinks_capped (fun _ => none) w10.fetch 120 [fLink] _ _
    (by have h3 : (recs60 ++ eLinks.map recOf).length = 120 := rfl
        omega)]
  rfl

/-- Page 2 of the C10 crawl under a 121 cap: all sixty-one links fetched. -/
theorem pl_page2_cap121 :
    processLinks (fun _ => none) w10.fetch 121 (eLinks ++ [fLink]) recs60 eLinks =
      (recs60 ++ (recs60 ++ [recF]), eLinks ++ (eLinks ++ [fLink])) := by
  have h := processLinks_chunk (fun _ => none) w10.fetch 121 recOf
    (eLinks ++ [fLink]) [] recs60 eLinks step_all
    (by have h1 : recs60.length = 60 := rfl
        have h2 : (eLinks ++ [fLink]).length = 61 := rfl
        omega)
  simp only [List.append_nil] at h
  exact h.trans rfl

/-- One page-loop iteration, given the page's fetch, link discovery and
detail-loop results. -/
theorem processPages_step (primary : String → Option PyDateTime) (w : World)
    (firstDoc : Doc) (M : Nat) (p : String) (rest visited : List String)
    (evs : List Rec) (det : List String) (d : Doc) (links : List String)
    (evs' : List Rec) (det' : List String)
    (hf : (if p = AGENDA_URL then Except.ok firstDoc else w.fetch p) = .ok d)
    (hl : links_from_listing d.hrefs p = links)
    (hpl : processLinks primary w.fetch M links evs det = (evs', det')) :
    processPages primary w firstDoc M (p :: rest) visited evs det =
      if M ≤ evs'.length then .ok ⟨visited ++ [p], evs', det'⟩
      else processPages primary w firstDoc M rest (visited ++ [p]) evs' det' := by
  rw [processPages, hf]
  simp only []
  rw [hl, hpl]

/-- The C10 page loop under the source cap stops with 120 raw records. -/
theorem pp_cap120 :
    processPages (fun _ => none) w10 agendaDoc10 120 [AGENDA_URL, p2url] [] [] [] =
      .ok ⟨[AGENDA_URL, p2url], recs60 ++ recs60, eLinks ++ eLinks⟩ := by
  rw [processPages_step (fun _ => none) w10 agendaDoc10 120 AGENDA_URL [p2url]
    [] [] [] agendaDoc10 eLinks recs60 eLinks (by rw [if_pos rfl]) lfl_agenda
    (pl_page1 120 (by omega))]
  rw [if_neg (by have h1 : recs60.length = 60 := rfl
                 omega)]
  simp only [List.nil_append]
  rw [processPages_step (fun _ => none) w10 agendaDoc10 120 p2url []
    [AGENDA_URL] recs60 eLinks page2Doc (eLinks ++ [fLink])
    (recs60 ++ recs60) (eLinks ++ eLinks)
    (by rw [if_neg (by decide)]; rfl) lfl_page2 pl_page2_cap120]
  rw [if_pos (by have h1 : (recs60 ++ recs60).length = 120 := rfl
                 omega)]
  rfl

/-- The C10 page loop with the cap raised by one collects all 121 records. -/
theorem pp_cap121 :
    processPages (fun _ => none) w10 agendaDoc10 121 [AGENDA_URL, p2url] [] [] [] =
      .ok ⟨[AGENDA_URL, p2url], recs60 ++ (recs60 ++ [recF]),
        eLinks ++ (eLinks ++ [fLink])⟩ := by
  rw [processPages_step (fun _ => none) w10 agendaDoc10 121 AGENDA_URL [p2url]
    [] [] [] agendaDoc10 eLinks recs60 eLinks (by rw [if_pos rfl]) lfl_agenda
    (pl_page1 121 (by omega))]
  rw [if_neg (by have h1 : recs60.length = 60 := rfl
                 omega)]
  simp only [List.nil_append]
  rw [processPages_step (fun _ => none) w10 agendaDoc10 121 p2url []
    [AGENDA_URL] recs60 eLinks page2Doc (eLinks ++ [fLink])
    (recs60 ++ (recs60 ++ [recF])) (eLinks ++ (eLinks ++ [fLink]))
    (by rw [if_neg (by decide)]; rfl) lfl_page2 pl_page2_cap121]
  rw [if_pos (by have h1 : (recs60 ++ (recs60 ++ [recF])).length = 121 := rfl
                 omega)]
  rfl

/-- The C10 crawl at the source caps. -/
theorem crawl_cap120 :
    crawl (fun _ => none) MAX_PAGES MAX_EVENTS w10 =
      .ok ⟨[AGENDA_URL, p2url], recs60 ++ recs60, eLinks ++ eLinks⟩ := by
  rw [crawl]
  rw [show w10.fetch AGENDA_URL = Except.ok agendaDoc10 from rfl]
  simp only []
  rw [show (dedupKeepFirst (AGENDA_URL ::
      agendaDoc10.pagHrefs.map (urljoin AGENDA_URL))).take MAX_PAGES =
        [AGENDA_URL, p2url] from by decide]
  exact pp_cap120

/-- The C10 crawl with the event cap raised by one. -/
theorem crawl_cap121 :
    crawl (fun _ => none) MAX_PAGES 121 w10 =
      .ok ⟨[AGENDA_URL, p2url], recs60 ++ (recs60 ++ [recF]),
        eLinks ++ (eLinks ++ [fLink])⟩ := by
  rw [crawl]
  rw [show w10.fetch AGENDA_URL = Except.ok agendaDoc10 from rfl]
  simp only []
  rw [show (dedupKeepFirst (AGENDA_URL ::
      agendaDoc10.pagHrefs.map (urljoin AGENDA_URL))).take MAX_PAGES =
        [AGENDA_URL, p2url] from by decide]
  exact pp_cap121

/-- The sixty records carry pairwise-distinct `(url, start)` keys. -/
theorem recs60_nodup_keys : (recs60.map recKey).Nodup := by
  have h : recs60.map recKey = eLinks.map (fun u => (u, dt2030)) := by
    rw [recs60, List.map_map]
    rfl
  rw [h]
  exact eLinks_nodup.map (fun a b hab => congrArg Prod.fst hab)

/-- The sixty records are already duplicate-free. -/
theorem dedupe_recs60 : dedupe recs60 = recs60 :=
  dedupeAux_id [] recs60 recs60_nodup_keys (fun _ _ => List.not_mem_nil _)

/-- The 61st record's key is fresh. -/
theorem recF_fresh : recKey recF ∉ recs60.map recKey := by decide

/-- C10: the event cap applies to raw, pre-dedupe records.  In the `w10`
world the crawl stops at exactly `MAX_EVENTS = 120` raw records (the listed
61st distinct event `fLink` is never fetched), deduplication afterwards
collapses them to 60, so `scrape_all_events` returns only 60 unique events —
while the same crawl with the cap raised by one finds 61 unique events, so
more distinct events were discoverable past the cap. -/
theorem claim10_cap_pre_dedupe :
    (crawl (fun _ => none) MAX_PAGES MAX_EVENTS w10).toOption.map
        (fun t => (t.events.length, (dedupe t.events).length,
          t.details.contains fLink)) = some (120, 60, false) ∧
    (scrape_all_events (fun _ => none) w10).toOption.map List.length = some 60 ∧
    (crawl (fun _ => none) MAX_PAGES 121 w10).toOption.map
        (fun t => (dedupe t.events).length) = some 61 := by
  have hd120 : dedupe (recs60 ++ recs60) = recs60 :=
    (dedupe_append_self recs60).trans dedupe_recs60
  refine ⟨?_, ?_, ?_⟩
  · rw [crawl_cap120]
    show some ((recs60 ++ recs60).length, (dedupe (recs60 ++ recs60)).length,
      (eLinks ++ eLinks).contains fLink) = some (120, 60, false)
    rw [hd120]
    decide
  · rw [scrape_all_events, crawl_cap120]
    show some (dedupe (recs60 ++ recs60)).length = some 60
    rw [hd120]
    decide
  · rw [crawl_cap121]
    show some (dedupe (recs60 ++ (recs60 ++ [recF]))).length = some 61
    rw [← List.append_assoc, dedupe_dup_fresh recs60 recF recF_fresh,
      dedupe_recs60]
    decide

end Scraper
